import Mathlib

/-!
Verification of the stock-control application (`src/unnamed/part_000`).

The development shallowly embeds the core logic of the source file:
the expiration classifier `checkExpirationStatus`, the urgent-alert
effect around `showUrgentModal`, the Gemini retry loop
`generateGeminiContent`, the bulk name import `handleImport` with
`sanitizeDocId`, the draft-input coercion `handleInputChange` and the
`addItem`/`updateItem` validation, the autocomplete list
`uniqueItemNames`, the category helpers `normalizeCategory` and the
snapshot projection, and the snapshot sort.

JavaScript string primitives (trim, single-character split, global
replace, toLowerCase, parseInt) are re-implemented structurally over
`List Char` so that every definition evaluates by kernel reduction.
Machine numbers in the source are ordinary JavaScript numbers used at
integer scale, embedded as `Int`/`Nat`; the one real-number operation
(`Math.ceil` of a millisecond ratio) is embedded as the ceiling of an
exact rational.
-/

namespace StockApp

/-! ### JavaScript string primitives -/

/-- JavaScript `String.prototype.trim`: drop whitespace from both ends. -/
def jsTrim (s : String) : String :=
  String.mk (((s.data.dropWhile Char.isWhitespace).reverse.dropWhile Char.isWhitespace).reverse)

/-- Helper for `jsSplitChar`: accumulate the current field (reversed). -/
def splitCharAux (sep : Char) : List Char → List Char → List String
  | [], acc => [String.mk acc.reverse]
  | c :: cs, acc =>
    if c = sep then String.mk acc.reverse :: splitCharAux sep cs []
    else splitCharAux sep cs (c :: acc)

/-- JavaScript `s.split(sep)` for a single-character separator: the source
only splits on `'\n'`, `'\t'` and `','`.  `jsSplitChar sep "" = [""]`,
matching JavaScript. -/
def jsSplitChar (sep : Char) (s : String) : List String := splitCharAux sep s.data []

/-- `sanitizeDocId` (part_000:40-43): replace every `/` with `_`,
mirroring `name.replace(/\//g, '_')`. -/
def sanitizeDocId (name : String) : String :=
  String.mk (name.data.map (fun c => if c = '/' then '_' else c))

/-- ASCII lowering of one character; agrees with JavaScript
`toLowerCase` on the category strings of the source (whose uppercase
letters are all ASCII). -/
def asciiLowerChar (c : Char) : Char :=
  if 'A' ≤ c ∧ c ≤ 'Z' then Char.ofNat (c.toNat + 32) else c

/-- JavaScript `toLowerCase`, restricted to ASCII case folding. -/
def jsToLower (s : String) : String := String.mk (s.data.map asciiLowerChar)

/-- Longest leading digit run of a character list, as a number; `none`
when there is no leading digit (JavaScript `NaN`). -/
def jsParseIntDigits (cs : List Char) : Option Nat :=
  let ds := cs.takeWhile Char.isDigit
  if ds.isEmpty then none else some (ds.foldl (fun a c => a * 10 + (c.toNat - 48)) 0)

/-- JavaScript `parseInt(s, 10)`: skip leading whitespace, optional
sign, then the longest digit prefix; `none` models `NaN`. -/
def jsParseInt (s : String) : Option Int :=
  match s.data.dropWhile Char.isWhitespace with
  | '-' :: rest => (jsParseIntDigits rest).map (fun n => -(n : Int))
  | '+' :: rest => (jsParseIntDigits rest).map (fun n => (n : Int))
  | rest => (jsParseIntDigits rest).map (fun n => (n : Int))

/-- JavaScript `x || d` on a possibly-`NaN` number `x`: `NaN` and `0`
are falsy and give the default. -/
def jsOrDefault (x : Option Int) (d : Int) : Int :=
  match x with
  | some n => if n = 0 then d else n
  | none => d

/-- A concrete code-point comparator on character lists, a stand-in
instantiation for the environment-dependent `localeCompare`. -/
def cmpCharList : List Char → List Char → Int
  | [], [] => 0
  | [], _ :: _ => -1
  | _ :: _, [] => 1
  | a :: as, b :: bs =>
    if a.toNat < b.toNat then -1
    else if b.toNat < a.toNat then 1
    else cmpCharList as bs

/-- Code-point string comparator (a valid `localeCompare` instance). -/
def lcStd (a b : String) : Int := cmpCharList a.data b.data

/-! ### Categories (part_000:19-43, 146-157) -/

/-- `CATEGORIES` (part_000:19-30). -/
def CATEGORIES : List String :=
  ["General", "Bebidas", "Alimentos Secos", "Lácteos", "Fiambres y Embutidos",
   "Quesos", "Refrigerados", "Congelados", "Limpieza", "Otros"]

/-- `normalizeCategory` (part_000:33-37): case-insensitive lookup in
`CATEGORIES` of the trimmed input, defaulting to `CATEGORIES[0]`. -/
def normalizeCategory (cat : String) : String :=
  (CATEGORIES.find? (fun c => jsToLower c == jsToLower (jsTrim cat))).getD "General"

/-- The category computed by the stock snapshot handler
(part_000:152): `doc.data().category || CATEGORIES[0]`.  Only a missing
field (`none`) or an empty string is falsy; any other stored string is
kept unchanged. -/
def snapCategory (stored : Option String) : String :=
  match stored with
  | none => "General"
  | some s => if s = "" then "General" else s

/-! ### Temporal classifier (part_000:117-135) -/

/-- Milliseconds per day, the divisor `1000 * 60 * 60 * 24`. -/
def dayMs : Int := 86400000

/-- Result of `checkExpirationStatus`: `{ status, days, message }`. -/
structure ExpStatus where
  status : String
  days : Int
  message : String
deriving DecidableEq

/-- `checkExpirationStatus` (part_000:117-135).  Dates are embedded as
millisecond timestamps; `Math.ceil(diffMs / 86400000)` is the ceiling
of the exact rational ratio. -/
def checkExpirationStatus (expirationMs nowMs : Int) (thresholdDays : Int) : ExpStatus :=
  let diffMs := expirationMs - nowMs
  let diffDays : Int := ⌈(diffMs : ℚ) / (dayMs : ℚ)⌉
  if diffDays < 0 then
    { status := "Expired", days := diffDays,
      message := "VENCIDO hace " ++ toString (-diffDays) ++ " días" }
  else if diffDays ≤ thresholdDays then
    { status := "Warning", days := diffDays,
      message := "¡ALARMA! Vence en " ++ toString diffDays ++ " días (Umbral: "
        ++ toString thresholdDays ++ " días)" }
  else
    { status := "OK", days := diffDays, message := toString diffDays ++ " días restantes" }

/-! ### Stock snapshot projection (part_000:146-157) -/

/-- Default alarm threshold `DEFAULT_ALARM_DAYS` (part_000:16). -/
def DEFAULT_ALARM_DAYS : Int := 7

/-- A raw stored stock document as delivered by a snapshot. -/
structure StockDoc where
  id : String
  name : String
  quantity : String
  alarmDays : Option String
  category : Option String
  expirationDate : String
deriving DecidableEq

/-- A stock item as projected by the snapshot handler. -/
structure StockItem where
  id : String
  name : String
  quantity : Option Int
  alarmDays : Int
  category : String
  expirationDate : String
deriving DecidableEq

/-- The per-document mapping of the snapshot handler (part_000:147-153):
`quantity: parseInt(q, 10)`, `alarmDays: parseInt(a, 10) || 7`,
`category: c || CATEGORIES[0]`. -/
def mkStockItem (d : StockDoc) : StockItem :=
  { id := d.id
    name := d.name
    quantity := jsParseInt d.quantity
    alarmDays := jsOrDefault (d.alarmDays.bind jsParseInt) DEFAULT_ALARM_DAYS
    category := snapCategory d.category
    expirationDate := d.expirationDate }

/-- The snapshot handler (part_000:146-157): map the documents, then
`fetchedItems.sort((a, b) => dateA - dateB)`.  `dv` is the
`new Date(·).getTime()` valuation of a date string. -/
def processSnapshot (dv : String → Int) (docs : List StockDoc) : List StockItem :=
  List.insertionSort (fun a b => dv a.expirationDate ≤ dv b.expirationDate)
    (docs.map mkStockItem)

/-- `urgentItems` (part_000:363-369): items currently Expired or Warning. -/
def urgentItems (dv : String → Int) (nowMs : Int) (items : List StockItem) : List StockItem :=
  items.filter (fun it =>
    let st := (checkExpirationStatus (dv it.expirationDate) nowMs it.alarmDays).status
    st == "Expired" || st == "Warning")

/-! ### Name unifier (part_000:189-193) -/

/-- One step of JavaScript `Set` construction: append when absent. -/
def insertUnique (acc : List String) (x : String) : List String :=
  if x ∈ acc then acc else acc ++ [x]

/-- `Array.from(new Set(l))`: first occurrences, in insertion order. -/
def jsSet (l : List String) : List String := l.foldl insertUnique []

/-- `uniqueItemNames` (part_000:189-193): trim the stock names, merge
with the curated common names through a `Set`, and sort with the
locale comparator `lc` (the `localeCompare` of the environment). -/
def uniqueItemNames (lc : String → String → Int)
    (stockNames curatedNames : List String) : List String :=
  List.insertionSort (fun a b => lc a b ≤ 0)
    (jsSet (stockNames.map jsTrim ++ curatedNames))

/-! ### Import reconciliation (part_000:270-318) -/

/-- Accumulated outcome of the import scan: the unique names in
insertion order (`namesToSave`), `successCount` and `errorCount`. -/
structure ReconcileResult where
  upserts : List String
  successCount : Nat
  rejectedCount : Nat
deriving DecidableEq

/-- Field extraction of one import line (part_000:288-289): split on
tab when the line contains a tab, else on comma; trim the first field;
an empty result is a rejection. -/
def lineName (line : String) : Option String :=
  let values :=
    if (jsSplitChar '\t' line).length > 1 then jsSplitChar '\t' line
    else jsSplitChar ',' line
  let name := jsTrim (values.headD "")
  if name = "" then none else some name

/-- One iteration of the import loop (part_000:286-297). -/
def importStep (acc : ReconcileResult) (line : String) : ReconcileResult :=
  match lineName line with
  | some n =>
    { acc with upserts := insertUnique acc.upserts n, successCount := acc.successCount + 1 }
  | none => { acc with rejectedCount := acc.rejectedCount + 1 }

/-- `handleImport` parsing phase (part_000:270-297): `none` when the
trimmed input is empty (the guard at part_000:271 returns without
scanning), otherwise the fold of `importStep` over
`importData.trim().split('\n')`. -/
def handleImport (importData : String) : Option ReconcileResult :=
  if jsTrim importData = "" then none
  else some ((jsSplitChar '\n' (jsTrim importData)).foldl importStep ⟨[], 0, 0⟩)

/-- The `common_names` collection as a map from document id to the
stored `name` field. -/
def NameStore : Type := String → Option String

/-- `setDoc(doc(coll, docId), { name })`: overwrite one key. -/
def setDocEntry (m : NameStore) (k v : String) : NameStore :=
  fun q => if q = k then some v else m q

/-- The batch-apply loop (part_000:300-304): for each accepted name,
`batch.set(doc(coll, sanitizeDocId(name)), { name })`. -/
def applyUpserts (store : NameStore) (names : List String) : NameStore :=
  names.foldl (fun m n => setDocEntry m (sanitizeDocId n) n) store

/-- Last write to key `k` produced by the batch loop over `names`. -/
def lastWriteTo (names : List String) (k : String) : Option String :=
  names.foldl (fun acc n => if sanitizeDocId n = k then some n else acc) none

/-! ### Draft input handling and submission (part_000:196-217, 236-267, 322-348) -/

/-- The numeric branch of `handleInputChange`/`handleEditChange`
(part_000:200-202, 212-214): `Math.max(1, parseInt(value, 10) || 1)`. -/
def handleNumericInput (value : String) : Int :=
  max 1 (jsOrDefault (jsParseInt value) 1)

/-- The draft item state (`newItem` / `editingItem`). -/
structure ItemDraft where
  name : String
  quantity : Int
  expirationDate : String
  alarmDays : Int
  category : String
deriving DecidableEq

/-- Outcome of a submission: either a store write with the written
fields, or a rejection that only sets the error message. -/
inductive SubmitOutcome where
  | saved (name : String) (quantity : Int) (expirationDate : String)
      (alarmDays : Int) (category : String)
  | rejected (errorMessage : String)
deriving DecidableEq

/-- `addItem` validation and write payload (part_000:236-257): reject
when a required field is missing or a numeric field is non-positive,
otherwise write the trimmed name and the draft fields. -/
def addItem (d : ItemDraft) : SubmitOutcome :=
  if d.name = "" ∨ d.expirationDate = "" ∨ d.quantity ≤ 0 ∨ d.alarmDays ≤ 0 then
    .rejected "Por favor, complete todos los campos requeridos correctamente."
  else
    .saved (jsTrim d.name) d.quantity d.expirationDate d.alarmDays d.category

/-- `updateItem` validation and write payload (part_000:322-341). -/
def updateItem (d : ItemDraft) : SubmitOutcome :=
  if d.name = "" ∨ d.expirationDate = "" ∨ d.quantity ≤ 0 ∨ d.alarmDays ≤ 0 then
    .rejected "Por favor, complete todos los campos de edición correctamente."
  else
    .saved (jsTrim d.name) d.quantity d.expirationDate d.alarmDays d.category

/-! ### Urgent-alert effect (part_000:64, 372-376, 566-568) -/

/-- The state carried by the alert gate: the dependency pair
`[urgentItems.length, loading]` seen by the last effect run, and the
`showUrgentModal` flag. -/
structure AlertState where
  lastDeps : Option (Nat × Bool)
  flag : Bool
deriving DecidableEq

/-- Observable steps of the alert lifecycle: a render with the current
urgent count and loading flag, or the user acknowledgment
(`handleClose`, part_000:566-568). -/
inductive AlertEvent where
  | render (urgentLen : Nat) (loading : Bool)
  | ack
deriving DecidableEq

/-- One step of the alert lifecycle.  A render runs the effect
(part_000:372-376) exactly when its dependency pair changed (React
effect semantics, including the first render); the effect sets the
flag when `urgentItems.length > 0 && !loading` and otherwise leaves it
untouched.  `ack` clears the flag. -/
def alertStep (s : AlertState) (e : AlertEvent) : AlertState :=
  match e with
  | .ack => { s with flag := false }
  | .render len loading =>
    if s.lastDeps = some (len, loading) then s
    else
      { lastDeps := some (len, loading)
        flag := if 0 < len ∧ loading = false then true else s.flag }

/-- Initial alert state: no effect run yet, `showUrgentModal = false`. -/
def alertInit : AlertState := { lastDeps := none, flag := false }

/-- Run a sequence of alert events from the initial state. -/
def runAlert (es : List AlertEvent) : AlertState := es.foldl alertStep alertInit

/-! ### Resilient Gemini call (part_000:380-431) -/

/-- One attempt's outcome as seen by the retry loop: a 2xx response
with an optional extracted text, a non-2xx response with its status
and resolved error message, or a transport failure (the `catch`). -/
inductive FetchResp where
  | ok (text : Option String)
  | httpStatus (status : Nat) (errMsg : String)
  | netError
deriving DecidableEq

/-- Terminal outcome of `generateGeminiContent`, exactly as surfaced
through `setGeminiResponse`: the text set on success, the
`"Error: " + message` string built in the non-retryable else branch
(part_000:413-416 — the same branch for a last-attempt 429 and for any
other failing status, which therefore carries no status information),
the fixed connection-failure message after exhausted transport
retries, or no result (unreachable from the entry point). -/
inductive GeminiOutcome where
  | success (text : String)
  | httpFailure (message : String)
  | connectionFailure
  | noResult
deriving DecidableEq

/-- Observable run of the retry loop: attempts made, the backoff
sleeps performed in order, and the terminal outcome. -/
structure GeminiRun where
  attempts : Nat
  sleeps : List Nat
  outcome : GeminiOutcome
deriving DecidableEq

/-- `maxRetries` (part_000:394). -/
def maxRetries : Nat := 3

/-- The retry loop body (part_000:396-427), with `fuel` the remaining
iterations of `for (let i = 0; i < maxRetries; i++)`.  A 429 with
retries left, or a transport error with retries left, sleeps `delay`
and doubles it; every other response terminates the loop. -/
def geminiLoop (f : Nat → FetchResp) : Nat → Nat → Nat → List Nat → GeminiRun
  | 0, i, _, sleeps => ⟨i, sleeps, .noResult⟩
  | fuel + 1, i, delay, sleeps =>
    match f i with
    | .ok t => ⟨i + 1, sleeps, .success (t.getD "No se pudo generar una respuesta.")⟩
    | .httpStatus s m =>
      if s = 429 ∧ i < maxRetries - 1 then
        geminiLoop f fuel (i + 1) (delay * 2) (sleeps ++ [delay])
      else ⟨i + 1, sleeps, .httpFailure ("Error: " ++ m)⟩
    | .netError =>
      if i < maxRetries - 1 then
        geminiLoop f fuel (i + 1) (delay * 2) (sleeps ++ [delay])
      else ⟨i + 1, sleeps, .connectionFailure⟩

/-- `generateGeminiContent` (part_000:380-431): up to `maxRetries`
attempts, initial delay 1000ms.  `f i` is the response received by
attempt `i`. -/
def generateGeminiContent (f : Nat → FetchResp) : GeminiRun :=
  geminiLoop f maxRetries 0 1000 []

/-- A response the loop retries on: a transport failure or HTTP 429. -/
def retryableResp (r : FetchResp) : Prop :=
  r = .netError ∨ ∃ m, r = .httpStatus 429 m

/-- The backoff sleeps performed before attempt `k` (0-based): `1000 * 2 ^ j`
for `j = 0, …, k - 1`. -/
def backoffSleeps (k : Nat) : List Nat := (List.range k).map (fun j => 1000 * 2 ^ j)


/-! ### Helper lemmas -/

/-- Ceiling of an exact integer ratio, characterized by two-sided
integer bounds. -/
theorem ceil_ratio_bounds (a b : Int) (hb : 0 < b) :
    (⌈(a : ℚ) / (b : ℚ)⌉ - 1) * b < a ∧ a ≤ ⌈(a : ℚ) / (b : ℚ)⌉ * b := by
  have hbQ : (0 : ℚ) < (b : ℚ) := by exact_mod_cast hb
  constructor
  · have h1 : ((⌈(a : ℚ) / (b : ℚ)⌉ : ℚ) - 1) < (a : ℚ) / (b : ℚ) := by
      have := Int.ceil_lt_add_one ((a : ℚ) / (b : ℚ))
      linarith
    have h2 : ((⌈(a : ℚ) / (b : ℚ)⌉ : ℚ) - 1) * (b : ℚ) < (a : ℚ) := by
      have := (lt_div_iff₀ hbQ).mp h1
      linarith
    exact_mod_cast h2
  · have h1 : (a : ℚ) / (b : ℚ) ≤ (⌈(a : ℚ) / (b : ℚ)⌉ : ℚ) := Int.le_ceil _
    have h2 : (a : ℚ) ≤ (⌈(a : ℚ) / (b : ℚ)⌉ : ℚ) * (b : ℚ) := (div_le_iff₀ hbQ).mp h1
    exact_mod_cast h2

theorem cmpCharList_trans : ∀ as bs cs, cmpCharList as bs ≤ 0 → cmpCharList bs cs ≤ 0 →
    cmpCharList as cs ≤ 0 := by
  intro as
  induction as with
  | nil => intro bs cs _ _; cases cs <;> simp [cmpCharList]
  | cons a as ih =>
    intro bs cs hab hbc
    cases bs with
    | nil => simp [cmpCharList] at hab
    | cons b bs =>
      cases cs with
      | nil => simp [cmpCharList] at hbc
      | cons c cs =>
        rcases Nat.lt_trichotomy a.toNat b.toNat with h1 | h1 | h1
        · rcases Nat.lt_trichotomy b.toNat c.toNat with h2 | h2 | h2
          · simp [cmpCharList, Nat.lt_trans h1 h2]
          · simp [cmpCharList, h2 ▸ h1]
          · simp [cmpCharList, Nat.lt_asymm h2, h2] at hbc
        · rcases Nat.lt_trichotomy b.toNat c.toNat with h2 | h2 | h2
          · simp [cmpCharList, h1 ▸ h2]
          · have hac : ¬ a.toNat < c.toNat := by omega
            have hca : ¬ c.toNat < a.toNat := by omega
            have hab' : cmpCharList as bs ≤ 0 := by
              simpa [cmpCharList, Nat.lt_irrefl, h1] using hab
            have hbc' : cmpCharList bs cs ≤ 0 := by
              simpa [cmpCharList, Nat.lt_irrefl, h2] using hbc
            simpa [cmpCharList, hac, hca] using ih bs cs hab' hbc'
          · simp [cmpCharList, Nat.lt_asymm h2, h2] at hbc
        · simp [cmpCharList, Nat.lt_asymm h1, h1] at hab

theorem cmpCharList_total : ∀ as bs, cmpCharList as bs ≤ 0 ∨ cmpCharList bs as ≤ 0 := by
  intro as
  induction as with
  | nil => intro bs; cases bs <;> simp [cmpCharList]
  | cons a as ih =>
    intro bs
    cases bs with
    | nil => simp [cmpCharList]
    | cons b bs =>
      rcases Nat.lt_trichotomy a.toNat b.toNat with h1 | h1 | h1
      · left; simp [cmpCharList, h1]
      · have h2 : ¬ a.toNat < b.toNat := by omega
        have h3 : ¬ b.toNat < a.toNat := by omega
        rcases ih bs with h | h
        · left; simpa [cmpCharList, h2, h3] using h
        · right; simpa [cmpCharList, h2, h3] using h
      · right; simp [cmpCharList, h1]

theorem lcStd_trans (a b c : String) (hab : lcStd a b ≤ 0) (hbc : lcStd b c ≤ 0) :
    lcStd a c ≤ 0 :=
  cmpCharList_trans a.data b.data c.data hab hbc

theorem lcStd_total (a b : String) : lcStd a b ≤ 0 ∨ lcStd b a ≤ 0 :=
  cmpCharList_total a.data b.data

theorem mem_insertUnique (acc : List String) (x y : String) :
    y ∈ insertUnique acc x ↔ y ∈ acc ∨ y = x := by
  unfold insertUnique
  split_ifs with h
  · constructor
    · exact Or.inl
    · rintro (hy | rfl)
      · exact hy
      · exact h
  · simp [List.mem_append]

theorem nodup_insertUnique (acc : List String) (x : String) (h : acc.Nodup) :
    (insertUnique acc x).Nodup := by
  unfold insertUnique
  split_ifs with hx
  · exact h
  · simp [List.nodup_append, h, hx]

theorem mem_foldl_insertUnique :
    ∀ (l acc : List String) (y : String),
      y ∈ l.foldl insertUnique acc ↔ y ∈ acc ∨ y ∈ l := by
  intro l
  induction l with
  | nil => intro acc y; simp
  | cons x l ih =>
    intro acc y
    simp only [List.foldl_cons]
    rw [ih, mem_insertUnique]
    simp [List.mem_cons, or_assoc]

theorem nodup_foldl_insertUnique :
    ∀ (l acc : List String), acc.Nodup → (l.foldl insertUnique acc).Nodup := by
  intro l
  induction l with
  | nil => intro acc h; simpa using h
  | cons x l ih =>
    intro acc h
    simp only [List.foldl_cons]
    exact ih _ (nodup_insertUnique acc x h)

theorem mem_jsSet (l : List String) (y : String) : y ∈ jsSet l ↔ y ∈ l := by
  unfold jsSet
  rw [mem_foldl_insertUnique]
  simp

theorem nodup_jsSet (l : List String) : (jsSet l).Nodup :=
  nodup_foldl_insertUnique l [] List.nodup_nil

theorem foldl_insertUnique_subset :
    ∀ (l acc : List String), (∀ x ∈ l, x ∈ acc) → l.foldl insertUnique acc = acc := by
  intro l
  induction l with
  | nil => intro acc _; rfl
  | cons x l ih =>
    intro acc h
    simp only [List.foldl_cons]
    have hx : insertUnique acc x = acc := by
      unfold insertUnique
      rw [if_pos (h x (List.mem_cons_self x l))]
    rw [hx]
    exact ih acc (fun z hz => h z (List.mem_cons_of_mem x hz))

theorem jsSet_append_self (A : List String) : jsSet (A ++ A) = jsSet A := by
  unfold jsSet
  rw [List.foldl_append]
  exact foldl_insertUnique_subset A _ (fun x hx => (mem_jsSet A x).mpr hx)

theorem map_jsTrim_eq_self (A : List String) (h : ∀ x ∈ A, jsTrim x = x) :
    A.map jsTrim = A := by
  induction A with
  | nil => rfl
  | cons x A ih =>
    simp only [List.map_cons]
    rw [h x (List.mem_cons_self x A), ih (fun z hz => h z (List.mem_cons_of_mem x hz))]

theorem mem_foldl_importStep :
    ∀ (ls : List String) (acc : ReconcileResult) (y : String),
      y ∈ (ls.foldl importStep acc).upserts
        ↔ y ∈ acc.upserts ∨ ∃ l ∈ ls, lineName l = some y := by
  intro ls
  induction ls with
  | nil => intro acc y; simp
  | cons l ls ih =>
    intro acc y
    simp only [List.foldl_cons]
    rw [ih]
    cases hl : lineName l with
    | none => simp [importStep, hl]
    | some n =>
      simp only [importStep, hl]
      rw [mem_insertUnique]
      constructor
      · rintro ((hy | rfl) | hy)
        · exact Or.inl hy
        · exact Or.inr ⟨l, List.mem_cons_self l ls, hl⟩
        · obtain ⟨l', hl', hn⟩ := hy
          exact Or.inr ⟨l', List.mem_cons_of_mem l hl', hn⟩
      · rintro (hy | ⟨l', hl', hn⟩)
        · exact Or.inl (Or.inl hy)
        · rcases List.mem_cons.mp hl' with rfl | hl''
          · rw [hl] at hn
            exact Or.inl (Or.inr (Option.some.inj hn).symm)
          · exact Or.inr ⟨l', hl'', hn⟩

theorem nodup_foldl_importStep :
    ∀ (ls : List String) (acc : ReconcileResult), acc.upserts.Nodup →
      ((ls.foldl importStep acc).upserts).Nodup := by
  intro ls
  induction ls with
  | nil => intro acc h; simpa using h
  | cons l ls ih =>
    intro acc h
    simp only [List.foldl_cons]
    cases hl : lineName l with
    | none => exact ih _ (by simpa [importStep, hl] using h)
    | some n => exact ih _ (by simpa [importStep, hl] using nodup_insertUnique acc.upserts n h)

theorem foldl_lastWrite_shift (k : String) :
    ∀ (ns : List String) (acc : Option String),
      ns.foldl (fun a n => if sanitizeDocId n = k then some n else a) acc
        = match ns.foldl (fun a n => if sanitizeDocId n = k then some n else a) none with
          | some v => some v
          | none => acc := by
  intro ns
  induction ns with
  | nil => intro acc; rfl
  | cons n ns ih =>
    intro acc
    simp only [List.foldl_cons]
    rw [ih ((fun a n => if sanitizeDocId n = k then some n else a) acc n),
      ih ((fun a n => if sanitizeDocId n = k then some n else a) none n)]
    cases hns : ns.foldl (fun a n => if sanitizeDocId n = k then some n else a) none with
    | some v => rfl
    | none =>
      by_cases hn : sanitizeDocId n = k <;> simp [hn]

theorem lastWriteTo_cons (n : String) (ns : List String) (k : String) :
    lastWriteTo (n :: ns) k
      = match lastWriteTo ns k with
        | some v => some v
        | none => if sanitizeDocId n = k then some n else none := by
  unfold lastWriteTo
  simp only [List.foldl_cons]
  exact foldl_lastWrite_shift k ns (if sanitizeDocId n = k then some n else none)

theorem applyUpserts_lookup :
    ∀ (ns : List String) (store : NameStore) (k : String),
      applyUpserts store ns k
        = match lastWriteTo ns k with
          | some v => some v
          | none => store k := by
  intro ns
  induction ns with
  | nil => intro store k; rfl
  | cons n ns ih =>
    intro store k
    rw [show applyUpserts store (n :: ns)
        = applyUpserts (setDocEntry store (sanitizeDocId n) n) ns from rfl,
      ih, lastWriteTo_cons]
    cases hns : lastWriteTo ns k with
    | some v => rfl
    | none =>
      by_cases hn : sanitizeDocId n = k
      · simp [setDocEntry, hn]
      · simp [setDocEntry, hn, Ne.symm hn]

theorem applyUpserts_idem (ns : List String) (store : NameStore) :
    applyUpserts (applyUpserts store ns) ns = applyUpserts store ns := by
  funext k
  rw [applyUpserts_lookup, applyUpserts_lookup]
  cases h : lastWriteTo ns k with
  | some v => rfl
  | none => rfl

theorem geminiLoop_attempts_le (f : Nat → FetchResp) :
    ∀ (fuel i delay : Nat) (sleeps : List Nat),
      (geminiLoop f fuel i delay sleeps).attempts ≤ i + fuel := by
  intro fuel
  induction fuel with
  | zero => intro i delay sleeps; simp [geminiLoop]
  | succ fuel ih =>
    intro i delay sleeps
    cases hf : f i with
    | ok t => simp [geminiLoop, hf]
    | httpStatus s m =>
      by_cases hc : s = 429 ∧ i < maxRetries - 1
      · have := ih (i + 1) (delay * 2) (sleeps ++ [delay])
        simp [geminiLoop, hf, hc]
        omega
      · simp [geminiLoop, hf, hc]
    | netError =>
      by_cases hc : i < maxRetries - 1
      · have := ih (i + 1) (delay * 2) (sleeps ++ [delay])
        simp [geminiLoop, hf, hc]
        omega
      · simp [geminiLoop, hf, hc]

/-! ### Claim theorems -/

/-- C1: for every expiration date, threshold `T ≥ 1` and current moment,
`checkExpirationStatus` returns `days` equal to the ceiling of the
difference in whole days (characterized by the two-sided bound
`(days - 1) * dayMs < diff ≤ days * dayMs`), and returns status
`Expired` iff `days < 0`, `Warning` iff `0 ≤ days ≤ T`, and `OK` iff
`days > T`. -/
theorem C1_classify_status (expirationMs nowMs T : Int) (hT : 1 ≤ T) :
    ((checkExpirationStatus expirationMs nowMs T).days - 1) * dayMs
        < expirationMs - nowMs
    ∧ expirationMs - nowMs ≤ (checkExpirationStatus expirationMs nowMs T).days * dayMs
    ∧ ((checkExpirationStatus expirationMs nowMs T).status = "Expired"
        ↔ (checkExpirationStatus expirationMs nowMs T).days < 0)
    ∧ ((checkExpirationStatus expirationMs nowMs T).status = "Warning"
        ↔ 0 ≤ (checkExpirationStatus expirationMs nowMs T).days
          ∧ (checkExpirationStatus expirationMs nowMs T).days ≤ T)
    ∧ ((checkExpirationStatus expirationMs nowMs T).status = "OK"
        ↔ T < (checkExpirationStatus expirationMs nowMs T).days) := by
  have hb : (0 : Int) < dayMs := by norm_num [dayMs]
  obtain ⟨hlo, hhi⟩ := ceil_ratio_bounds (expirationMs - nowMs) dayMs hb
  unfold checkExpirationStatus
  dsimp only
  set d : Int := ⌈((expirationMs - nowMs : Int) : ℚ) / ((dayMs : Int) : ℚ)⌉ with hd
  split_ifs with hneg hwarn <;> dsimp only
  · refine ⟨hlo, hhi, ?_, ?_, ?_⟩
    · simpa using hneg
    · constructor
      · intro h; exact absurd h (by decide)
      · intro h; exact absurd h (by omega)
    · constructor
      · intro h; exact absurd h (by decide)
      · intro h; exact absurd h (by omega)
  · refine ⟨hlo, hhi, ?_, ?_, ?_⟩
    · constructor
      · intro h; exact absurd h (by decide)
      · intro h; exact absurd h (by omega)
    · simp only [true_iff]
      omega
    · constructor
      · intro h; exact absurd h (by decide)
      · intro h; exact absurd h (by omega)
  · refine ⟨hlo, hhi, ?_, ?_, ?_⟩
    · constructor
      · intro h; exact absurd h (by decide)
      · intro h; exact absurd h (by omega)
    · constructor
      · intro h; exact absurd h (by decide)
      · intro h; exact absurd h (by omega)
    · simp only [true_iff]
      omega

/-- Witness for C1 at a concrete input: three days to expiry against
threshold 7. -/
theorem C1_classify_status_witness :
    (1 : Int) ≤ 7
    ∧ (((checkExpirationStatus 259200000 0 7).days - 1) * dayMs < 259200000 - 0
      ∧ 259200000 - 0 ≤ (checkExpirationStatus 259200000 0 7).days * dayMs
      ∧ ((checkExpirationStatus 259200000 0 7).status = "Expired"
          ↔ (checkExpirationStatus 259200000 0 7).days < 0)
      ∧ ((checkExpirationStatus 259200000 0 7).status = "Warning"
          ↔ 0 ≤ (checkExpirationStatus 259200000 0 7).days
            ∧ (checkExpirationStatus 259200000 0 7).days ≤ 7)
      ∧ ((checkExpirationStatus 259200000 0 7).status = "OK"
          ↔ 7 < (checkExpirationStatus 259200000 0 7).days)) :=
  ⟨by norm_num, C1_classify_status 259200000 0 7 (by norm_num)⟩

/-- C2 counterexample: render with one urgent item (alert fires), the
user acknowledges, then a second unrelated Warning item appears while
the urgent set is already non-empty (count 1 → 2).  The claim says the
flag must stay false; the effect re-runs because its dependency
`urgentItems.length` changed, and sets it true again. -/
theorem C2_alert_gate_counterexample :
    (runAlert [.render 1 false, .ack]).flag = false
    ∧ (runAlert [.render 1 false, .ack, .render 2 false]).flag = true := by
  decide

/-- C2 amended: after a render the flag is true exactly when it was
already true or the effect observed a changed dependency pair
`(urgent count, loading)` with count > 0 and loading finished — so a
count change while the urgent set is already non-empty (for example
1 → 2 after acknowledgment) does re-raise it, while a changed pair
with count 0 or loading still true leaves a false flag false; the
state is untouched while count and loading are unchanged, the flag is
cleared by acknowledgment, and a render never clears it (false only
via acknowledgment). -/
theorem C2_alert_gate_amended :
    (∀ s len ld, (alertStep s (.render len ld)).flag = true
        ↔ (s.flag = true ∨ (s.lastDeps ≠ some (len, ld) ∧ 0 < len ∧ ld = false)))
    ∧ (∀ s len ld, s.lastDeps = some (len, ld) → alertStep s (.render len ld) = s)
    ∧ (∀ s, (alertStep s .ack).flag = false)
    ∧ (∀ s len ld, s.flag = true → (alertStep s (.render len ld)).flag = true) := by
  have hiff : ∀ s len ld, (alertStep s (.render len ld)).flag = true
      ↔ (s.flag = true ∨ (s.lastDeps ≠ some (len, ld) ∧ 0 < len ∧ ld = false)) := by
    intro s len ld
    cases ld with
    | false =>
      by_cases hd : s.lastDeps = some (len, false)
      · simp [alertStep, hd]
      · by_cases hlen : 0 < len <;> simp [alertStep, hd, hlen]
    | true =>
      by_cases hd : s.lastDeps = some (len, true)
      · simp [alertStep, hd]
      · simp [alertStep, hd]
  refine ⟨hiff, ?_, ?_, ?_⟩
  · intro s len ld h
    simp [alertStep, h]
  · intro s
    simp [alertStep]
  · intro s len ld h
    exact (hiff s len ld).mpr (Or.inl h)

/-- Witness for C2 amended: the very first post-loading render with a
non-empty urgent set raises the flag. -/
theorem C2_alert_gate_amended_witness :
    alertInit.lastDeps ≠ some (1, false)
    ∧ (alertStep alertInit (.render 1 false)).flag = true :=
  ⟨by decide,
    (C2_alert_gate_amended.1 alertInit 1 false).mpr (Or.inr ⟨by decide, by decide, rfl⟩)⟩

/-- C3: the wrapper makes at most 3 attempts in every run; when the
first two attempts return HTTP 429 and the third returns 200 with a
text payload, it succeeds on the 3rd attempt having slept 1000ms
before the second attempt and 2000ms before the third, and never
after the last. -/
theorem C3_retry_backoff :
    (∀ f m1 m2 t, f 0 = .httpStatus 429 m1 → f 1 = .httpStatus 429 m2 →
        f 2 = .ok (some t) →
        generateGeminiContent f = ⟨3, [1000, 2000], .success t⟩)
    ∧ (∀ f, (generateGeminiContent f).attempts ≤ 3) := by
  constructor
  · intro f m1 m2 t h0 h1 h2
    simp [generateGeminiContent, geminiLoop, maxRetries, h0, h1, h2]
  · intro f
    simpa using geminiLoop_attempts_le f maxRetries 0 1000 []

/-- Witness for C3: a mock returning 429 twice then 200. -/
theorem C3_retry_backoff_witness :
    (fun i => if i = 2 then FetchResp.ok (some "hola") else .httpStatus 429 "rate") 0
        = FetchResp.httpStatus 429 "rate"
    ∧ generateGeminiContent
        (fun i => if i = 2 then FetchResp.ok (some "hola") else .httpStatus 429 "rate")
        = ⟨3, [1000, 2000], .success "hola"⟩ :=
  ⟨by decide,
    C3_retry_backoff.1 (fun i => if i = 2 then FetchResp.ok (some "hola") else .httpStatus 429 "rate")
      "rate" "rate" "hola" (by decide) (by decide) (by decide)⟩

/-- C6 counterexample: a run whose three attempts are all rate-limited
(429) and a run whose first attempt gets a non-retryable 500 surface
the identical terminal failure whenever the server messages coincide —
both go through the same else branch (part_000:413-416) and build the
same `"Error: " + message` string — so the wrapper's terminal failure
does not distinguish rate-limited-after-retries from a non-retryable
server error. -/
theorem C6_terminal_failures_counterexample :
    (generateGeminiContent (fun _ => FetchResp.httpStatus 429 "Quota exceeded")).outcome
      = (generateGeminiContent (fun _ => FetchResp.httpStatus 500 "Quota exceeded")).outcome := by
  decide

/-- C6 amended: a non-429 failing status terminates the run on the
attempt that received it, with no further attempt and no sleep added
by that attempt; exhausted 429s surface an `"Error: " + message`
failure after 3 attempts and sleeps 1000ms and 2000ms, exhausted
transport failures surface the distinct fixed connection failure, but
rate-limited-after-retries and a non-retryable server error are
surfaced through the same construction and are distinguished only by
the server-supplied message, not by the wrapper. -/
theorem C6_terminal_failures :
    (∀ f k s m, k < maxRetries → (∀ j, j < k → retryableResp (f j)) →
        f k = .httpStatus s m → s ≠ 429 →
        generateGeminiContent f = ⟨k + 1, backoffSleeps k, .httpFailure ("Error: " ++ m)⟩)
    ∧ (∀ f, (∀ j, j < maxRetries → ∃ m, f j = .httpStatus 429 m) →
        ∃ m, generateGeminiContent f = ⟨3, [1000, 2000], .httpFailure ("Error: " ++ m)⟩)
    ∧ (∀ f, (∀ j, j < maxRetries → f j = .netError) →
        generateGeminiContent f = ⟨3, [1000, 2000], .connectionFailure⟩)
    ∧ (∀ m, GeminiOutcome.httpFailure m ≠ GeminiOutcome.connectionFailure) := by
  refine ⟨?_, ?_, ?_, ?_⟩
  · intro f k s m hk hr hfk hs
    have hk3 : k < 3 := by simpa [maxRetries] using hk
    interval_cases k
    · simp [generateGeminiContent, geminiLoop, maxRetries, backoffSleeps, hfk, hs]
    · rcases hr 0 (by omega) with h0 | ⟨m0, h0⟩ <;>
        simp [generateGeminiContent, geminiLoop, maxRetries, backoffSleeps, h0, hfk, hs] <;>
        decide
    · rcases hr 0 (by omega) with h0 | ⟨m0, h0⟩ <;>
        rcases hr 1 (by omega) with h1 | ⟨m1, h1⟩ <;>
        simp [generateGeminiContent, geminiLoop, maxRetries, backoffSleeps, h0, h1, hfk, hs] <;>
        decide
  · intro f h
    obtain ⟨m0, h0⟩ := h 0 (by norm_num [maxRetries])
    obtain ⟨m1, h1⟩ := h 1 (by norm_num [maxRetries])
    obtain ⟨m2, h2⟩ := h 2 (by norm_num [maxRetries])
    exact ⟨m2, by simp [generateGeminiContent, geminiLoop, maxRetries, h0, h1, h2]⟩
  · intro f h
    have h0 := h 0 (by norm_num [maxRetries])
    have h1 := h 1 (by norm_num [maxRetries])
    have h2 := h 2 (by norm_num [maxRetries])
    simp [generateGeminiContent, geminiLoop, maxRetries, h0, h1, h2]
  · intro m h
    exact GeminiOutcome.noConfusion h

/-- Witness for C6 amended: a mock returning 500 on the first attempt
fails immediately with no retry and no sleep. -/
theorem C6_terminal_failures_witness :
    (0 : Nat) < maxRetries
    ∧ generateGeminiContent (fun _ => FetchResp.httpStatus 500 "boom")
        = ⟨0 + 1, backoffSleeps 0, .httpFailure ("Error: " ++ "boom")⟩ :=
  ⟨by norm_num [maxRetries],
    C6_terminal_failures.1 (fun _ => FetchResp.httpStatus 500 "boom") 0 500 "boom"
      (by norm_num [maxRetries]) (fun j hj => absurd hj (by omega)) rfl (by norm_num)⟩

/-- C4: `handleImport` on the raw text with two Milk lines, an empty
line, and a Cheese line produces exactly the two unique upserts Milk
and Cheese with one rejected line; in general the emitted upsert list
is duplicate-free, and a name is emitted iff some line of the trimmed
input parses to it (split on tab when the line contains one, else on
comma; trimmed first field; accepted iff non-empty). -/
theorem C4_import_parse :
    handleImport "Milk\nMilk\n\nCheese" = some ⟨["Milk", "Cheese"], 3, 1⟩
    ∧ (∀ raw r, handleImport raw = some r →
        r.upserts.Nodup
        ∧ (∀ n, n ∈ r.upserts
            ↔ ∃ line ∈ jsSplitChar '\n' (jsTrim raw), lineName line = some n)) := by
  constructor
  · decide
  · intro raw r h
    unfold handleImport at h
    split_ifs at h with hempty
    obtain rfl : (jsSplitChar '\n' (jsTrim raw)).foldl importStep ⟨[], 0, 0⟩ = r :=
      Option.some.inj h
    constructor
    · exact nodup_foldl_importStep _ _ (by simp)
    · intro n
      rw [mem_foldl_importStep]
      simp

/-- Witness for C4 at the single line `Milk`. -/
theorem C4_import_parse_witness :
    handleImport "Milk" = some ⟨["Milk"], 1, 0⟩
    ∧ (ReconcileResult.upserts ⟨["Milk"], 1, 0⟩).Nodup
    ∧ (∀ n, n ∈ ReconcileResult.upserts ⟨["Milk"], 1, 0⟩
        ↔ ∃ line ∈ jsSplitChar '\n' (jsTrim "Milk"), lineName line = some n) :=
  ⟨by decide,
    (C4_import_parse.2 "Milk" ⟨["Milk"], 1, 0⟩ (by decide)).1,
    (C4_import_parse.2 "Milk" ⟨["Milk"], 1, 0⟩ (by decide)).2⟩

/-- C5: applying the upserts produced by a reconciliation twice to the
stored name map — each write keyed by `sanitizeDocId` of the name with
the name itself as payload — leaves exactly the state reached after
applying them once. -/
theorem C5_import_idempotent (raw : String) (r : ReconcileResult) (store : NameStore)
    (_h : handleImport raw = some r) :
    applyUpserts (applyUpserts store r.upserts) r.upserts = applyUpserts store r.upserts :=
  applyUpserts_idem r.upserts store

/-- Witness for C5 on the single-line import `Milk` over the empty store. -/
theorem C5_import_idempotent_witness :
    handleImport "Milk" = some ⟨["Milk"], 1, 0⟩
    ∧ applyUpserts
        (applyUpserts (fun _ => none) (ReconcileResult.upserts ⟨["Milk"], 1, 0⟩))
        (ReconcileResult.upserts ⟨["Milk"], 1, 0⟩)
      = applyUpserts (fun _ => none) (ReconcileResult.upserts ⟨["Milk"], 1, 0⟩) :=
  ⟨by decide, C5_import_idempotent "Milk" ⟨["Milk"], 1, 0⟩ (fun _ => none) (by decide)⟩

/-- C7: every string typed into the quantity or alarm-days field is
coerced to an integer ≥ 1 (0, negative and non-parsable inputs give
1), and `addItem`/`updateItem` reject — setting only the error
message, with no store write — whenever a required field is missing or
a numeric field is non-positive. -/
theorem C7_draft_validation :
    (∀ v, 1 ≤ handleNumericInput v)
    ∧ (∀ v, jsParseInt v = none → handleNumericInput v = 1)
    ∧ (∀ v n, jsParseInt v = some n → n ≤ 0 → handleNumericInput v = 1)
    ∧ (∀ d : ItemDraft,
        d.name = "" ∨ d.expirationDate = "" ∨ d.quantity ≤ 0 ∨ d.alarmDays ≤ 0 →
        addItem d = .rejected "Por favor, complete todos los campos requeridos correctamente."
        ∧ updateItem d
            = .rejected "Por favor, complete todos los campos de edición correctamente.") := by
  refine ⟨?_, ?_, ?_, ?_⟩
  · intro v
    exact le_max_left 1 _
  · intro v h
    simp [handleNumericInput, jsOrDefault, h]
  · intro v n h hn
    rw [handleNumericInput, h]
    by_cases h0 : n = 0
    · simp [jsOrDefault, h0]
    · simp only [jsOrDefault, h0, if_false]
      exact max_eq_left (by omega)
  · intro d hd
    constructor
    · unfold addItem
      rw [if_pos hd]
    · unfold updateItem
      rw [if_pos hd]

/-- Witness for C7: the input "0" is coerced to 1, and a draft with
quantity 0 is rejected by both submission paths. -/
theorem C7_draft_validation_witness :
    jsParseInt "0" = some 0
    ∧ handleNumericInput "0" = 1
    ∧ addItem ⟨"Leche", 0, "2025-01-01", 7, "General"⟩
        = .rejected "Por favor, complete todos los campos requeridos correctamente."
    ∧ updateItem ⟨"Leche", 0, "2025-01-01", 7, "General"⟩
        = .rejected "Por favor, complete todos los campos de edición correctamente." :=
  ⟨by decide,
    C7_draft_validation.2.2.1 "0" 0 (by decide) (by decide),
    (C7_draft_validation.2.2.2 ⟨"Leche", 0, "2025-01-01", 7, "General"⟩ (by decide)).1,
    (C7_draft_validation.2.2.2 ⟨"Leche", 0, "2025-01-01", 7, "General"⟩ (by decide)).2⟩

/-- C8 counterexample: with the code-point comparator standing in for
`localeCompare`, `unify([" a"], [" a"])` is not the sorted
deduplication of `[" a"]` — `uniqueItemNames` trims the stock copy but
not the curated copy, so both `"a"` and `" a"` survive. -/
theorem C8_unify_counterexample :
    uniqueItemNames lcStd [" a"] [" a"]
      ≠ List.insertionSort (fun a b => lcStd a b ≤ 0) (jsSet [" a"]) := by
  decide

/-- C8 amended: for every comparator whose non-strict relation is
transitive and total (as `localeCompare` is), `uniqueItemNames` is
sorted by that relation and duplicate-free, contains exactly the
trimmed stock names and the curated names, and maps two empty inputs
to the empty list; `unify(A, A)` equals the sorted deduplication of
`A` provided every name in `A` is already trimmed. -/
theorem C8_unify_amended (lc : String → String → Int)
    (htrans : ∀ a b c, lc a b ≤ 0 → lc b c ≤ 0 → lc a c ≤ 0)
    (htotal : ∀ a b, lc a b ≤ 0 ∨ lc b a ≤ 0) :
    (∀ A B, (uniqueItemNames lc A B).Pairwise (fun a b => lc a b ≤ 0)
      ∧ (uniqueItemNames lc A B).Nodup
      ∧ (∀ n, n ∈ uniqueItemNames lc A B ↔ n ∈ A.map jsTrim ∨ n ∈ B))
    ∧ uniqueItemNames lc [] [] = []
    ∧ (∀ A, (∀ x ∈ A, jsTrim x = x) →
        uniqueItemNames lc A A
          = List.insertionSort (fun a b => lc a b ≤ 0) (jsSet A)) := by
  haveI : IsTotal String (fun a b => lc a b ≤ 0) := ⟨htotal⟩
  haveI : IsTrans String (fun a b => lc a b ≤ 0) := ⟨htrans⟩
  refine ⟨?_, rfl, ?_⟩
  · intro A B
    refine ⟨List.sorted_insertionSort _ _, ?_, ?_⟩
    · exact (List.perm_insertionSort _ _).symm.nodup
        (nodup_jsSet (A.map jsTrim ++ B))
    · intro n
      unfold uniqueItemNames
      rw [List.mem_insertionSort, mem_jsSet, List.mem_append]
  · intro A hA
    unfold uniqueItemNames
    rw [map_jsTrim_eq_self A hA, jsSet_append_self]

/-- Witness for C8 amended: the code-point comparator on trimmed
one-element inputs. -/
theorem C8_unify_amended_witness :
    (∀ x ∈ ["a"], jsTrim x = x)
    ∧ uniqueItemNames lcStd ["a"] ["a"]
        = List.insertionSort (fun a b => lcStd a b ≤ 0) (jsSet ["a"]) :=
  ⟨by decide, (C8_unify_amended lcStd lcStd_trans lcStd_total).2.2 ["a"] (by decide)⟩

/-- C9 counterexample: a stored record whose category field holds the
unrecognized non-empty value "Banana" is projected by the snapshot
mapping with that exact category, which is not in `CATEGORIES` — the
handler only falls back on a falsy (absent or empty) field and never
calls `normalizeCategory`. -/
theorem C9_category_counterexample :
    snapCategory (some "Banana") ∉ CATEGORIES := by
  decide

/-- C9 amended: `normalizeCategory` always lands in `CATEGORIES`, but
the snapshot projection defaults to the first category only when the
stored field is absent or empty; any other stored value — recognized
or not — is kept verbatim. -/
theorem C9_category_amended :
    (∀ cat, normalizeCategory cat ∈ CATEGORIES)
    ∧ snapCategory none = "General"
    ∧ snapCategory (some "") = "General"
    ∧ "General" ∈ CATEGORIES
    ∧ (∀ s, s ≠ "" → snapCategory (some s) = s) := by
  refine ⟨?_, rfl, by decide, by decide, ?_⟩
  · intro cat
    unfold normalizeCategory
    cases h : CATEGORIES.find? (fun c => jsToLower c == jsToLower (jsTrim cat)) with
    | none => decide
    | some c => simpa using List.mem_of_find?_eq_some h
  · intro s hs
    simp [snapCategory, hs]

/-- Witness for C9 amended at the unrecognized stored value "Banana". -/
theorem C9_category_amended_witness :
    "Banana" ≠ "" ∧ snapCategory (some "Banana") = "Banana" :=
  ⟨by decide, C9_category_amended.2.2.2.2 "Banana" (by decide)⟩

/-- C10: the items projection delivered by every snapshot is the
mapped documents sorted into non-decreasing order of the expiration
date value, so each snapshot re-establishes the ordering invariant. -/
theorem C10_snapshot_sorted (dv : String → Int) (docs : List StockDoc) :
    (processSnapshot dv docs).Pairwise
        (fun a b => dv a.expirationDate ≤ dv b.expirationDate)
    ∧ (processSnapshot dv docs).Perm (docs.map mkStockItem) := by
  haveI : IsTotal StockItem (fun a b => dv a.expirationDate ≤ dv b.expirationDate) :=
    ⟨fun a b => le_total _ _⟩
  haveI : IsTrans StockItem (fun a b => dv a.expirationDate ≤ dv b.expirationDate) :=
    ⟨fun a b c hab hbc => le_trans hab hbc⟩
  exact ⟨List.sorted_insertionSort _ _, List.perm_insertionSort _ _⟩

end StockApp